import Mathlib

/-!
Verification of the translation-pipeline core of the My-novels repository.

The Python sources are shallowly embedded below.  Strings are handled through
their underlying character lists (`String.data`) with structural-recursive
helpers so that every definition evaluates inside the kernel.  Python float
arithmetic on length ratios is modelled exactly over rationals scaled to
naturals (`len(c)/len(s) < 0.6` becomes `10 * len c < 6 * len s`).

Namespaces: `TC` embeds `tr_cerebras.py`, `TE` embeds `translate_epub.py`,
`RL` embeds the `RateLimiter` class shared (up to constants) by both drivers,
`Glos` embeds the glossary-merge step of `process_chapter`.
-/

/-- Python `needle in haystack` test on prefixes: `isPrefOf pat l` is true
when `pat` is an initial segment of `l`. -/
def isPrefOf : List Char → List Char → Bool
  | [], _ => true
  | _ :: _, [] => false
  | a :: as, b :: bs => a == b && isPrefOf as bs

/-- Python substring membership `pat in text` over character lists. -/
def containsSeq : List Char → List Char → Bool
  | [], pat => pat.isEmpty
  | text@(_ :: rest), pat => isPrefOf pat text || containsSeq rest pat

/-- Python `text.split('\n')` over character lists. -/
def splitNl : List Char → List (List Char)
  | [] => [[]]
  | c :: cs =>
    if c == '\n' then [] :: splitNl cs
    else
      match splitNl cs with
      | [] => [[c]]
      | l :: ls => (c :: l) :: ls

/-- Python `line.strip()` (whitespace from both ends) over character lists. -/
def trimChars (l : List Char) : List Char :=
  ((l.dropWhile Char.isWhitespace).reverse.dropWhile Char.isWhitespace).reverse

/-- Python `str.lower()` over character lists (ASCII case folding). -/
def lowerC (l : List Char) : List Char :=
  l.map Char.toLower

/-- The list comprehension `[line.strip() for line in text.split('\n') if line.strip()]`
used by every validator variant: non-blank stripped lines of a text. -/
def stripLines (text : String) : List (List Char) :=
  ((splitNl text.data).map trimChars).filter (fun l => !l.isEmpty)

/-- The literal completion marker required at the end of accepted output. -/
def end_marker : String := "<<END_OF_CHAPTER>>"

namespace TC

/-- Refusal keyword list of `tr_cerebras.check_refusal` (the Python code checks
the keyword verbatim against the lowercased text, so the capitalised keywords
can never match; embedded as written). -/
def refusal_keywords : List String :=
  ["I cannot translate", "I can\x27t translate", "unable to translate",
   "AI language model", "content policy", "safety guidelines"]

/-- `tr_cerebras.check_refusal`. -/
def check_refusal (text : String) : Bool :=
  refusal_keywords.any (fun k => containsSeq (lowerC text.data) k.data)

/-- `tr_cerebras.check_hallucination`: needs at least 10 non-blank lines, then
flags a window of 5 consecutive lines repeated verbatim in the next 5. -/
def check_hallucination (text : String) : Bool :=
  let lines := stripLines text
  if lines.length < 10 then false
  else
    (List.range (lines.length - 5)).any fun i =>
      decide (i + 10 ≤ lines.length) &&
      ((lines.drop i).take 5 == (lines.drop (i + 5)).take 5)

/-- Rejection reasons of `tr_cerebras.validate_translation`, one per
`return False` site, in the order the code tests them. -/
inductive Reason
  | empty
  | refusal
  | hallucination
  | ratio
  | lineCount
  | marker
  deriving DecidableEq, Repr

/-- Content-level body of `tr_cerebras.validate_translation` (after the file
read): `none` means the translation is accepted, `some r` means it is rejected
for reason `r`.  The float comparison `len(content)/len(source) < 0.6` is
modelled exactly as `10 * len content < 6 * len source`, and
`trans_lines < source_lines * 0.5` as `2 * trans_lines < source_lines`. -/
def validate_content (content : String) (source_text : Option String) : Option Reason :=
  if (trimChars content.data).isEmpty then some .empty
  else if check_refusal content then some .refusal
  else if check_hallucination content then some .hallucination
  else
    let afterSource : Option Reason :=
      match source_text with
      | some src =>
        if src.data.isEmpty then none
        else if 10 * content.data.length < 6 * src.data.length then some .ratio
        else if 20 < (stripLines src).length ∧
                2 * (stripLines content).length < (stripLines src).length then
          some .lineCount
        else none
      | none => none
    match afterSource with
    | some r => some r
    | none =>
      if containsSeq content.data end_marker.data then none
      else some .marker

/-- `tr_cerebras.validate_translation`: the `try`/`except` wrapper around the
file read is modelled by an `Option String` argument; a missing or unreadable
file (`none`) lands in the `except` branch, which returns `False`. -/
def validate_translation (file : Option String) (source_text : Option String) : Bool :=
  match file with
  | none => false
  | some content => (validate_content content source_text).isNone

end TC

namespace TE

/-- Refusal keyword list of `translate_epub.check_refusal`. -/
def refusal_keywords : List String :=
  ["I cannot translate", "I can\x27t translate", "I am unable to translate",
   "As an AI language model",
   "violate my safety guidelines", "against my content policy"]

/-- `translate_epub.check_refusal` (this variant lowercases the keyword too). -/
def check_refusal (text : String) : Bool :=
  refusal_keywords.any (fun k => containsSeq (lowerC text.data) (lowerC k.data))

/-- Python `Counter(lines).most_common(1)`: the line with the highest
occurrence count, ties resolved in favour of the first occurrence (Counter
iterates keys in first-insertion order and `nlargest` is stable). -/
def mostCommon (lines : List (List Char)) : Option (List Char × Nat) :=
  lines.foldl
    (fun best k =>
      match best with
      | none => some (k, lines.count k)
      | some p => if lines.count k > p.2 then some (k, lines.count k) else some p)
    none

/-- `translate_epub.check_hallucination`: the window-repetition test
additionally requires `chunk[0] == chunk[1]`, and the frequency test fires
only when the single most common line occurs more than 10 times and is longer
than 5 characters. -/
def check_hallucination (text : String) : Bool :=
  let lines := stripLines text
  if lines.length < 10 then false
  else
    let rep := (List.range (lines.length - 5)).any fun i =>
      decide (i + 10 ≤ lines.length) &&
      ((lines.drop i).take 5 == (lines.drop (i + 5)).take 5) &&
      (lines.getD i [] == lines.getD (i + 1) [])
    if rep then true
    else
      match mostCommon lines with
      | some p => decide (p.2 > 10) && decide (p.1.length > 5)
      | none => false

/-- Content-level body of `translate_epub.validate_translation`: `true` means
accepted.  Thresholds differ from the `tr_cerebras` variant (line-retention
trigger at more than 10 source lines) and two legacy natural-language end
markers are accepted as fallbacks.  Float comparisons modelled exactly as in
`TC.validate_content`. -/
def validate_content (content : String) (source_text : Option String) : Bool :=
  if (trimChars content.data).isEmpty then false
  else if check_refusal content then false
  else if check_hallucination content then false
  else
    let srcFail : Bool :=
      match source_text with
      | some src =>
        if src.data.isEmpty then false
        else
          decide (10 * content.data.length < 6 * src.data.length) ||
          (decide (10 < (stripLines src).length) &&
           decide (2 * (stripLines content).length < (stripLines src).length))
      | none => false
    if srcFail then false
    else if containsSeq content.data end_marker.data then true
    else if containsSeq (lowerC content.data) ("(end of chapter)" : String).data ||
            containsSeq (lowerC content.data) ("end of chapter" : String).data then true
    else false

/-- `translate_epub.validate_translation`, with the `try`/`except` file read
modelled as in `TC.validate_translation`. -/
def validate_translation (file : Option String) (source_text : Option String) : Bool :=
  match file with
  | none => false
  | some content => validate_content content source_text

/-- One iteration of the attempt loop of `translate_epub.process_chapter`, as
seen from outside: either the provider call and the subsequent validation both
succeed, or the validation fails, or the call raises an error whose string
form contains the rate-limit signal (429 / resource exhausted), or it raises
any other exception. -/
inductive AttemptEvent
  | success
  | validationFail
  | rateLimitError
  | otherError
  deriving DecidableEq, Repr

/-- `base_delay = 10` in `translate_epub.process_chapter`. -/
def base_delay : Nat := 10

/-- The `for attempt in range(max_retries)` loop of
`translate_epub.process_chapter`, driven by the list of events the attempts
produce (one event per loop iteration, the index argument being the Python
`attempt`).  Returns whether the chapter succeeded together with the sleep
delays incurred: a validation failure sleeps 5, a rate-limit error sleeps
`base_delay * 2 ^ attempt`, any other exception sleeps 5; every one of them
lets the `for` loop advance to the next attempt. -/
def run_attempts : List AttemptEvent → Nat → Bool × List Nat
  | [], _ => (false, [])
  | e :: es, attempt =>
    match e with
    | .success => (true, [])
    | .validationFail =>
      let r := run_attempts es (attempt + 1)
      (r.1, 5 :: r.2)
    | .rateLimitError =>
      let r := run_attempts es (attempt + 1)
      (r.1, base_delay * 2 ^ attempt :: r.2)
    | .otherError =>
      let r := run_attempts es (attempt + 1)
      (r.1, 5 :: r.2)

/-- `translate_epub.process_chapter`'s retry loop started at attempt 0; the
event list has one entry per available attempt (`max_retries = 2` in the
source). -/
def process_chapter_attempts (events : List AttemptEvent) : Bool × List Nat :=
  run_attempts events 0

end TE

namespace RL

/-- State of the `RateLimiter` class (`tr_cerebras.py`; `translate_epub.py` is
identical up to the constructor constants and the sleep interval): recorded
request timestamps and `(timestamp, token_cost)` pairs.  Time is modelled as
natural-number seconds; Python timestamps never exceed the current time. -/
structure RLState where
  request_timestamps : List Nat
  token_timestamps : List (Nat × Nat)
  deriving Repr, DecidableEq

/-- `RateLimiter._cleanup`: drop every record not satisfying `now - t < 60`. -/
def cleanup (s : RLState) (now : Nat) : RLState :=
  { request_timestamps := s.request_timestamps.filter (fun t => now - t < 60)
    token_timestamps := s.token_timestamps.filter (fun p => now - p.1 < 60) }

/-- The admission condition checked by `wait_if_needed` after `_cleanup`:
`current_rpm < rpm_limit and current_tpm + estimated_tokens <= tpm_limit`. -/
def canAdmit (s : RLState) (now est rpm_limit tpm_limit : Nat) : Bool :=
  let s' := cleanup s now
  decide (s'.request_timestamps.length < rpm_limit) &&
  decide ((s'.token_timestamps.map (·.2)).sum + est ≤ tpm_limit)

/-- The commit performed once the admission condition holds: the state was
cleaned at check time `now`, and the request is recorded at the (equal or
slightly later) time `now2` obtained from the second `time.time()` call. -/
def commit (s : RLState) (now now2 est : Nat) : RLState :=
  let s' := cleanup s now
  { request_timestamps := s'.request_timestamps ++ [now2]
    token_timestamps := s'.token_timestamps ++ [(now2, est)] }

/-- `RateLimiter.wait_if_needed` as a fuel-indexed loop: each iteration cleans
up, checks the admission condition, and either commits and returns the new
state or sleeps `tick` seconds (2 in `tr_cerebras.py`) and retries.  `none`
means the loop has not returned within `fuel` iterations. -/
def wait_loop (est rpm_limit tpm_limit tick : Nat) :
    Nat → RLState → Nat → Option RLState
  | 0, _, _ => none
  | fuel + 1, s, now =>
    if canAdmit s now est rpm_limit tpm_limit then some (commit s now now est)
    else wait_loop est rpm_limit tpm_limit tick fuel s (now + tick)

/-- Number of recorded request timestamps lying within the last 60 seconds. -/
def windowCount (s : RLState) (now : Nat) : Nat :=
  (s.request_timestamps.filter (fun t => now - t < 60)).length

/-- Sum of recorded token costs lying within the last 60 seconds. -/
def windowSum (s : RLState) (now : Nat) : Nat :=
  ((s.token_timestamps.filter (fun p => now - p.1 < 60)).map (·.2)).sum

end RL

namespace Glos

/-- The dict comprehension
`unique_terms = {t['original_term']: t['english_translation'] for t in new_terms_list}`
of `process_chapter`, as a lookup function: later entries overwrite earlier
ones for the same key. -/
def dictOfList (ts : List (String × String)) : String → Option String :=
  ts.foldl (fun d p => fun k => if k == p.1 then some p.2 else d k) (fun _ => none)

/-- The in-place update `for k, v in unique_terms.items(): glossary[k] = v`. -/
def updateGlossary (g : String → Option String) (ts : List (String × String)) :
    String → Option String :=
  fun k =>
    match dictOfList ts k with
    | some v => some v
    | none => g k

/-- Specification helper: the english translation of the last occurrence of
`k` as an `original_term` in the `new_terms` list. -/
def lastOcc (ts : List (String × String)) (k : String) : Option String :=
  (ts.reverse.find? (fun p => p.1 == k)).map (·.2)

/-- The glossary as the Unit Processor sees it: the in-memory dict plus the
persisted `glossary.json` contents. -/
structure GlossaryStore where
  mem : String → Option String
  disk : String → Option String

/-- The accept-path glossary step of `process_chapter` (`tr_cerebras.py`,
`uni.py`): under the lock, when `new_terms_list` is non-empty, build
`unique_terms`, write every pair into the glossary and call `save_glossary`
on the updated dict in the same critical section. -/
def apply_new_terms (st : GlossaryStore) (ts : List (String × String)) : GlossaryStore :=
  if ts.isEmpty then st
  else
    let m := updateGlossary st.mem ts
    { mem := m, disk := m }

end Glos

namespace TC

/-- The command-line flags consumed by `tr_cerebras.process_book`.
`chapters = none` models the argparse default `None`; `nargs="+"` makes an
explicitly given empty list impossible, so Python truthiness of the allow-list
coincides with `isSome`.  `limit = some 0` is falsy in Python, matching the
guard in `build_queue`. -/
structure Args where
  force : Bool
  audit : Bool
  fix_only : Bool
  chapters : Option (List Nat)
  limit : Option Nat

/-- One raw-chapter file as the `process_book` loop sees it: the chapter
number parsed from the filename (`none` when the `int(...)` parse raises),
the raw text (`none` when the read raises), and the persisted translation
(`none` when `os.path.exists` is false, `some none` when the file exists but
reading it inside `validate_translation` raises). -/
structure Chapter where
  num : Option Nat
  raw : Option String
  translated : Option (Option String)

/-- The guard `args.chapters and chapter_num not in args.chapters`. -/
def chapterFilterSkips (a : Args) (n : Nat) : Bool :=
  match a.chapters with
  | some cs => !(cs.contains n)
  | none => false

/-- Outcome of one iteration of the classification loop in `process_book`. -/
inductive Decision
  | queue
  | skip
  deriving DecidableEq, Repr

/-- Decision plus the `passed`/`failed` tally increments of one iteration. -/
structure ClassifyResult where
  decision : Decision
  passedInc : Nat
  failedInc : Nat
  deriving DecidableEq, Repr

/-- The body of the `for chapter_file in chapters` loop of
`tr_cerebras.process_book`: parse the number, apply the allow-list, read the
raw text, then — when a translation exists and `--force` is off — run the
deep validation with the source text; a passing chapter is skipped, a failing
one is tallied and, outside `--audit`, queued.  A missing translation is
queued unless `--fix-only` or `--audit` is active. -/
def classify_chapter (a : Args) (c : Chapter) : ClassifyResult :=
  match c.num with
  | none => ⟨.skip, 0, 0⟩
  | some n =>
    if chapterFilterSkips a n then ⟨.skip, 0, 0⟩
    else
      match c.raw with
      | none => ⟨.skip, 0, 0⟩
      | some src =>
        match c.translated with
        | some t =>
          if a.force then ⟨.queue, 0, 0⟩
          else if validate_translation t (some src) then ⟨.skip, 1, 0⟩
          else if a.audit then ⟨.skip, 0, 1⟩
          else ⟨.queue, 0, 1⟩
        | none =>
          if a.fix_only || a.audit then ⟨.skip, 0, 0⟩
          else ⟨.queue, 0, 0⟩

/-- The queue built by `tr_cerebras.process_book` before dispatch: the
classification filter followed by the
`if args.limit and not args.chapters: chapters_to_translate[:args.limit]`
truncation. -/
def build_queue (a : Args) (cs : List Chapter) : List Chapter :=
  let q := cs.filter fun c => (classify_chapter a c).decision == Decision.queue
  match a.limit, a.chapters with
  | some l, none => if l = 0 then q else q.take l
  | _, _ => q

end TC

/-! ## Theorems -/

/-- Helper: the sum of the second components of a filtered list is bounded by
the sum over the whole list. -/
theorem sum_map_filter_le (l : List (Nat × Nat)) (p : Nat × Nat → Bool) :
    ((l.filter p).map (·.2)).sum ≤ (l.map (·.2)).sum := by
  induction l with
  | nil => simp
  | cons a l ih =>
    by_cases h : p a <;> simp [List.filter_cons, h] <;> omega

/-- C1: the admission condition of `wait_if_needed` requires
`current_tpm + estimated_tokens <= tpm_limit` with `current_tpm >= 0`, so an
estimate strictly above the per-window token ceiling can never be admitted:
the spin loop returns for no amount of fuel, i.e. it blocks forever, contrary
to the claim (and to the comment at `tr_cerebras.py:223` announcing that the
oversized chapter proceeds after a warning). -/
theorem wait_if_needed_diverges_on_oversized_estimate
    (est rpm_limit tpm_limit tick : Nat) (h : tpm_limit < est) :
    ∀ (fuel : Nat) (s : RL.RLState) (now : Nat),
      RL.wait_loop est rpm_limit tpm_limit tick fuel s now = none := by
  intro fuel
  induction fuel with
  | zero => intro s now; rfl
  | succ n ih =>
    intro s now
    have hc : RL.canAdmit s now est rpm_limit tpm_limit = false := by
      have hB : ¬ (((RL.cleanup s now).token_timestamps.map (·.2)).sum + est ≤ tpm_limit) := by
        omega
      simp [RL.canAdmit, hB]
    simp only [RL.wait_loop, hc, Bool.false_eq_true, if_false]
    exact ih s (now + tick)

/-- C1 witness: with the configured limits of `tr_cerebras.py`
(`tpm_limit = 64000`), a request estimated at 64001 tokens on a fresh limiter
is still unanswered after 100 iterations of the wait loop. -/
theorem wait_if_needed_diverges_witness :
    RL.wait_loop 64001 30 64000 2 100 ⟨[], []⟩ 0 = none :=
  wait_if_needed_diverges_on_oversized_estimate 64001 30 64000 2 (by decide) 100 ⟨[], []⟩ 0

/-- C5: immediately after a committed admission of `wait_if_needed` (the
cleanup was done at check time `now`, the record appended at commit time
`now2`), the number of recorded request timestamps within the last 60 seconds
is at most `rpm_limit` and the sum of recorded token costs within the last 60
seconds is at most `tpm_limit`. -/
theorem rate_limiter_window_invariant
    (s : RL.RLState) (now now2 est rpm_limit tpm_limit : Nat)
    (hadm : RL.canAdmit s now est rpm_limit tpm_limit = true) :
    RL.windowCount (RL.commit s now now2 est) now2 ≤ rpm_limit ∧
    RL.windowSum (RL.commit s now now2 est) now2 ≤ tpm_limit := by
  unfold RL.canAdmit at hadm
  simp only [Bool.and_eq_true, decide_eq_true_eq] at hadm
  obtain ⟨h1, h2⟩ := hadm
  constructor
  · unfold RL.windowCount RL.commit
    rw [List.filter_append, List.length_append]
    have hfil := List.length_filter_le (fun t => decide (now2 - t < 60))
      (RL.cleanup s now).request_timestamps
    have hlast :
        (List.filter (fun t => decide (now2 - t < 60)) [now2]).length ≤ 1 := by
      simp [List.filter_cons]
    omega
  · unfold RL.windowSum RL.commit
    rw [List.filter_append, List.map_append, List.sum_append]
    have hfil := sum_map_filter_le (RL.cleanup s now).token_timestamps
      (fun p => decide (now2 - p.1 < 60))
    have hlast :
        ((List.filter (fun p => decide (now2 - p.1 < 60)) [(now2, est)]).map (·.2)).sum ≤ est := by
      simp [List.filter_cons]
    omega

/-- C5 witness: a concrete committed admission on a partially filled window
respects both 60-second budgets. -/
theorem rate_limiter_window_invariant_witness :
    RL.windowCount (RL.commit ⟨[0, 10], [(0, 100), (10, 200)]⟩ 30 30 500) 30 ≤ 30 ∧
    RL.windowSum (RL.commit ⟨[0, 10], [(0, 100), (10, 200)]⟩ 30 30 500) 30 ≤ 64000 :=
  rate_limiter_window_invariant ⟨[0, 10], [(0, 100), (10, 200)]⟩ 30 30 500 30 64000 (by decide)

/-- C10: `validate_translation` is total over file-system outcomes — the whole
body sits inside `try`/`except Exception: return False`, so a missing or
unreadable translation file (modelled as a `none` read result) yields the
rejection verdict `False` instead of an escaping exception, in both driver
variants. -/
theorem validate_translation_total_on_read_failure (source_text : Option String) :
    TC.validate_translation none source_text = false ∧
    TE.validate_translation none source_text = false :=
  ⟨rfl, rfl⟩

/-- Helper: looking a key up in the dict built by the comprehension
`{t['original_term']: t['english_translation'] for t in new_terms_list}`
started from any accumulator yields the translation of the key's last
occurrence, or falls back to the accumulator. -/
theorem foldl_dict_lookup (ts : List (String × String)) (k : String) :
    ∀ d : String → Option String,
      (ts.foldl (fun d p => fun k => if k == p.1 then some p.2 else d k) d) k =
        match Glos.lastOcc ts k with
        | some v => some v
        | none => d k := by
  induction ts with
  | nil => intro d; simp [Glos.lastOcc]
  | cons p ts ih =>
    intro d
    rw [List.foldl_cons, ih]
    unfold Glos.lastOcc
    rw [List.reverse_cons, List.find?_append]
    cases hf : ts.reverse.find? (fun q => q.1 == k) with
    | some q => simp [Option.or]
    | none =>
      simp only [Option.or, List.find?_singleton]
      by_cases hk : p.1 = k
      · simp [hk]
      · have h1 : (p.1 == k) = false := beq_eq_false_iff_ne.mpr hk
        have h2 : (k == p.1) = false := beq_eq_false_iff_ne.mpr (Ne.symm hk)
        simp [h1, h2]

/-- Helper: `dictOfList` is exactly last-occurrence lookup. -/
theorem dictOfList_eq_lastOcc (ts : List (String × String)) (k : String) :
    Glos.dictOfList ts k = Glos.lastOcc ts k := by
  unfold Glos.dictOfList
  rw [foldl_dict_lookup]
  cases Glos.lastOcc ts k <;> rfl

/-- C9: the glossary merge of `process_chapter` is last-write-wins per key —
after `apply_new_terms`, a key occurring in the `new_terms` list maps to the
english translation of its last occurrence there, a key not occurring keeps
its previous value, and (for a non-empty contribution) the persisted store
written by `save_glossary` in the same locked section equals the updated
in-memory glossary. -/
theorem glossary_merge_last_write_wins (st : Glos.GlossaryStore)
    (ts : List (String × String)) (k : String) :
    ((Glos.apply_new_terms st ts).mem k =
       match Glos.lastOcc ts k with
       | some v => some v
       | none => st.mem k) ∧
    (ts ≠ [] → (Glos.apply_new_terms st ts).disk = (Glos.apply_new_terms st ts).mem) := by
  constructor
  · unfold Glos.apply_new_terms
    by_cases h : ts.isEmpty
    · rw [List.isEmpty_iff] at h
      subst h
      simp [Glos.lastOcc]
    · rw [if_neg h]
      show Glos.updateGlossary st.mem ts k = _
      unfold Glos.updateGlossary
      rw [dictOfList_eq_lastOcc]
  · intro h
    have h' : ts.isEmpty = false := List.isEmpty_eq_false.mpr h
    unfold Glos.apply_new_terms
    rw [h']
    simp

/-- C9 witness: two occurrences of the same key — the later one wins, an
untouched key survives, and the persisted store equals the merged one. -/
theorem glossary_merge_last_write_wins_witness :
    (Glos.apply_new_terms ⟨fun _ => none, fun _ => none⟩ [("a", "x"), ("a", "y")]).mem "a" =
      some "y" ∧
    (Glos.apply_new_terms ⟨fun _ => none, fun _ => none⟩ [("a", "x"), ("a", "y")]).disk =
      (Glos.apply_new_terms ⟨fun _ => none, fun _ => none⟩ [("a", "x"), ("a", "y")]).mem :=
  ⟨by rw [(glossary_merge_last_write_wins ⟨fun _ => none, fun _ => none⟩
       [("a", "x"), ("a", "y")] "a").1]; rfl,
   (glossary_merge_last_write_wins ⟨fun _ => none, fun _ => none⟩
       [("a", "x"), ("a", "y")] "a").2 (by decide)⟩

/-- C6 counterexample: with `max_retries = 2`, two consecutive provider
failures carrying the 429 rate-limit signal each consume one of the bounded
attempts (the `for` loop advances past the `except` branch), so rate-limit
failures alone exhaust the retry budget and the chapter fails — refuting the
claim that such failures never consume an attempt.  The recorded delays 10 and
20 show the exponential backoff `base_delay * 2 ^ attempt` advancing with the
consumed attempts. -/
theorem rate_limit_failures_exhaust_budget :
    TE.process_chapter_attempts [.rateLimitError, .rateLimitError] = (false, [10, 20]) := by
  decide

/-- Helper for C6: running the attempt loop from attempt index `i` on `n`
consecutive 429 failures fails after consuming all `n` attempts, sleeping
`base_delay * 2 ^ attempt` before each retry. -/
theorem run_attempts_all_rate_limited (n : Nat) :
    ∀ i : Nat, TE.run_attempts (List.replicate n .rateLimitError) i =
      (false, (List.range n).map fun j => TE.base_delay * 2 ^ (i + j)) := by
  induction n with
  | zero => intro i; simp [TE.run_attempts]
  | succ m ih =>
    intro i
    rw [List.replicate_succ]
    show (let r := TE.run_attempts (List.replicate m .rateLimitError) (i + 1)
          (r.1, TE.base_delay * 2 ^ i :: r.2)) = _
    rw [ih (i + 1), List.range_succ_eq_map]
    simp only [List.map_cons, List.map_map]
    refine congrArg (Prod.mk false) (congrArg₂ List.cons (by rw [Nat.add_zero]) ?_)
    refine List.map_congr_left fun j _ => ?_
    simp only [Function.comp]
    congr 1
    congr 1
    omega

/-- C6 amended: in `translate_epub.process_chapter`, a 429 failure at logical
attempt `i` is retried after an exponential backoff of
`base_delay * 2 ^ i`, but it consumes the attempt exactly like any other
exception; hence a run of rate-limit-only failures exhausts the retry budget
after `max_retries` attempts and the unit fails. -/
theorem rate_limit_retry_consumes_attempts (n : Nat) :
    TE.process_chapter_attempts (List.replicate n .rateLimitError) =
      (false, (List.range n).map fun j => TE.base_delay * 2 ^ j) := by
  unfold TE.process_chapter_attempts
  rw [run_attempts_all_rate_limited n 0]
  refine congrArg (Prod.mk false) (List.map_congr_left fun j _ => ?_)
  rw [Nat.zero_add]

/-- C2 counterexample: the empty candidate is shorter than 0.6 times a
ten-character source, yet `validate_translation` reports the emptiness reason,
not the length-ratio reason — the earlier checks of the short-circuiting
pipeline can pre-empt the ratio reason. -/
theorem short_candidate_reason_not_always_ratio :
    10 * ("" : String).data.length < 6 * ("aaaaaaaaaa" : String).data.length ∧
    TC.validate_content "" (some "aaaaaaaaaa") = some TC.Reason.empty ∧
    TC.validate_content "" (some "aaaaaaaaaa") ≠ some TC.Reason.ratio := by
  decide

/-- C2 amended: a candidate shorter than 0.6 times the supplied source is
always rejected; moreover, whenever it survives the earlier checks of the
pipeline (non-blank, no refusal phrase, no hallucination), the reported
reason is the length-ratio reason — even if the completion marker is
present. -/
theorem short_candidate_rejected (content source : String)
    (hlen : 10 * content.data.length < 6 * source.data.length) :
    TC.validate_translation (some content) (some source) = false ∧
    ((trimChars content.data).isEmpty = false →
     TC.check_refusal content = false →
     TC.check_hallucination content = false →
     TC.validate_content content (some source) = some TC.Reason.ratio) := by
  have hsrc : source.data.isEmpty = false := by
    rw [List.isEmpty_eq_false]
    intro h
    rw [h] at hlen
    simp at hlen
  have hratio : (trimChars content.data).isEmpty = false →
      TC.check_refusal content = false → TC.check_hallucination content = false →
      TC.validate_content content (some source) = some TC.Reason.ratio := by
    intro he hr hh
    unfold TC.validate_content
    simp only [he, hr, hh, hsrc, Bool.false_eq_true, if_false, if_pos hlen]
  refine ⟨?_, hratio⟩
  show (TC.validate_content content (some source)).isNone = false
  cases he : (trimChars content.data).isEmpty with
  | true => simp [TC.validate_content, he]
  | false =>
    cases hr : TC.check_refusal content with
    | true => simp [TC.validate_content, he, hr]
    | false =>
      cases hh : TC.check_hallucination content with
      | true => simp [TC.validate_content, he, hr, hh]
      | false => rw [hratio he hr hh]; rfl

/-- C2 witness: a five-character candidate against a ten-character source
(ratio 0.5, marker irrelevant) is rejected with the length-ratio reason. -/
theorem short_candidate_rejected_witness :
    TC.validate_translation (some "hello") (some "aaaaaaaaaa") = false ∧
    TC.validate_content "hello" (some "aaaaaaaaaa") = some TC.Reason.ratio := by
  have h := short_candidate_rejected "hello" "aaaaaaaaaa" (by decide)
  exact ⟨h.1, h.2 (by decide) (by decide) (by decide)⟩

/-- C7: a candidate containing neither the literal completion marker
`<<END_OF_CHAPTER>>` nor a legacy marker phrase is rejected by both
`validate_translation` variants, whatever the rest of its content and whether
a source text is supplied: every accepting branch requires a marker. -/
theorem missing_marker_always_rejected (content : String) (source_text : Option String)
    (h1 : containsSeq content.data end_marker.data = false)
    (h2 : containsSeq (lowerC content.data) ("(end of chapter)" : String).data = false)
    (h3 : containsSeq (lowerC content.data) ("end of chapter" : String).data = false) :
    TC.validate_translation (some content) source_text = false ∧
    TE.validate_translation (some content) source_text = false := by
  constructor
  · show (TC.validate_content content source_text).isNone = false
    unfold TC.validate_content
    simp only [h1, Bool.false_eq_true, if_false]
    split
    · rfl
    · split
      · rfl
      · split
        · rfl
        · split <;> rfl
  · show TE.validate_content content source_text = false
    unfold TE.validate_content
    simp only [h1, h2, h3, Bool.false_eq_true, Bool.or_self, if_false]
    split
    · rfl
    · split
      · rfl
      · split
        · rfl
        · split <;> rfl

/-- C7 witness: a plain markerless text is rejected by both variants. -/
theorem missing_marker_always_rejected_witness :
    TC.validate_translation (some "hello world") none = false ∧
    TE.validate_translation (some "hello world") none = false :=
  missing_marker_always_rejected "hello world" none (by decide) (by decide) (by decide)

/-- C4: in `tr_cerebras.process_book`, for a selected chapter whose persisted
translation exists and with `--force` off, the classifier runs
`validate_translation` with the chapter's source text; a passing chapter is
skipped (and tallied as passed), a failing one is queued for retranslation
exactly when audit mode is off, and in audit mode the failure is only tallied
while the chapter is still skipped. -/
theorem batch_driver_revalidates_existing
    (a : TC.Args) (c : TC.Chapter) (n : Nat) (src : String) (t : Option String)
    (hforce : a.force = false) (hnum : c.num = some n)
    (hsel : TC.chapterFilterSkips a n = false)
    (hraw : c.raw = some src) (htr : c.translated = some t) :
    (TC.validate_translation t (some src) = true →
       TC.classify_chapter a c = ⟨.skip, 1, 0⟩) ∧
    (TC.validate_translation t (some src) = false → a.audit = false →
       TC.classify_chapter a c = ⟨.queue, 0, 1⟩) ∧
    (TC.validate_translation t (some src) = false → a.audit = true →
       TC.classify_chapter a c = ⟨.skip, 0, 1⟩) := by
  refine ⟨fun hv => ?_, fun hv haud => ?_, fun hv haud => ?_⟩
  · simp [TC.classify_chapter, hnum, hsel, hraw, htr, hforce, hv]
  · simp [TC.classify_chapter, hnum, hsel, hraw, htr, hforce, hv, haud]
  · simp [TC.classify_chapter, hnum, hsel, hraw, htr, hforce, hv, haud]

/-- C4 witness: a chapter with a valid persisted translation is skipped and
tallied as passed. -/
theorem batch_driver_revalidates_existing_witness :
    TC.classify_chapter ⟨false, false, false, none, none⟩
      ⟨some 1, some "abc", some (some "hello world <<END_OF_CHAPTER>>")⟩ =
      ⟨TC.Decision.skip, 1, 0⟩ :=
  (batch_driver_revalidates_existing ⟨false, false, false, none, none⟩
    ⟨some 1, some "abc", some (some "hello world <<END_OF_CHAPTER>>")⟩
    1 "abc" (some "hello world <<END_OF_CHAPTER>>")
    rfl rfl (by decide) rfl rfl).1 (by decide)

/-- C8: idempotence of the Batch Driver — when `--force` is off and every
selected chapter (number parsed, allow-listed, raw readable) has a persisted
translation that passes `validate_translation` against its source text, the
queue built by `process_book` is empty. -/
theorem batch_driver_idempotent (a : TC.Args) (cs : List TC.Chapter)
    (hforce : a.force = false)
    (hvalid : ∀ c ∈ cs, ∀ n, c.num = some n → TC.chapterFilterSkips a n = false →
       ∀ src, c.raw = some src →
       ∃ t, c.translated = some t ∧ TC.validate_translation t (some src) = true) :
    TC.build_queue a cs = [] := by
  have hq : cs.filter (fun c => (TC.classify_chapter a c).decision == TC.Decision.queue) = [] := by
    rw [List.filter_eq_nil_iff]
    intro c hc
    cases hnum : c.num with
    | none => simp [TC.classify_chapter, hnum]
    | some n =>
      cases hsel : TC.chapterFilterSkips a n with
      | true => simp [TC.classify_chapter, hnum, hsel]
      | false =>
        cases hraw : c.raw with
        | none => simp [TC.classify_chapter, hnum, hsel, hraw]
        | some src =>
          obtain ⟨t, htr, hv⟩ := hvalid c hc n hnum hsel src hraw
          simp [TC.classify_chapter, hnum, hsel, hraw, htr, hforce, hv]
  unfold TC.build_queue
  simp only [hq]
  split <;> simp

/-- C8 witness: re-running over a book whose single chapter already validates
queues nothing. -/
theorem batch_driver_idempotent_witness :
    TC.build_queue ⟨false, false, false, none, none⟩
      [⟨some 1, some "abc", some (some "hello world <<END_OF_CHAPTER>>")⟩] = [] := by
  apply batch_driver_idempotent _ _ rfl
  intro c hc n hn hsel src hraw
  rw [List.mem_singleton] at hc
  subst hc
  simp only [Option.some.injEq] at hn hraw
  subst hraw
  exact ⟨some "hello world <<END_OF_CHAPTER>>", rfl, by decide⟩

/-- C3 counterexample: the ten non-blank lines a,b,c,d,e,a,b,c,d,e contain a
window of 5 consecutive lines (at position 0) immediately repeated verbatim
in the following 5 lines, so the claim requires rejection — yet
`check_hallucination` returns `false`, because the code additionally requires
the window's first two lines to be equal (`chunk[0] == chunk[1]`). -/
theorem repeated_window_not_always_flagged :
    TE.check_hallucination "a\nb\nc\nd\ne\na\nb\nc\nd\ne" = false ∧
    (stripLines "a\nb\nc\nd\ne\na\nb\nc\nd\ne").length = 10 ∧
    ((stripLines "a\nb\nc\nd\ne\na\nb\nc\nd\ne").drop 0).take 5 =
      ((stripLines "a\nb\nc\nd\ne\na\nb\nc\nd\ne").drop 5).take 5 := by
  decide

/-- C3 amended: the repetition/hallucination check rejects exactly when there
are at least 10 non-blank stripped lines and either (a) a window of 5
consecutive lines whose first two lines are equal is immediately repeated
verbatim in the following 5 lines, or (b) the single most frequent line (ties
resolved towards the first occurrence) recurs more than 10 times and is
longer than 5 characters. -/
theorem check_hallucination_characterisation (text : String) :
    TE.check_hallucination text = true ↔
      (10 ≤ (stripLines text).length ∧
       ((∃ i, i + 10 ≤ (stripLines text).length ∧
           ((stripLines text).drop i).take 5 = ((stripLines text).drop (i + 5)).take 5 ∧
           (stripLines text).getD i [] = (stripLines text).getD (i + 1) []) ∨
        (∃ p, TE.mostCommon (stripLines text) = some p ∧ 10 < p.2 ∧ 5 < p.1.length))) := by
  unfold TE.check_hallucination
  generalize stripLines text = lines
  by_cases hlen : lines.length < 10
  · simp only [hlen, if_true, Bool.false_eq_true, false_iff]
    rintro ⟨h10, -⟩
    omega
  · rw [if_neg hlen]
    have h10 : 10 ≤ lines.length := by omega
    have hrep : ((List.range (lines.length - 5)).any fun i =>
        decide (i + 10 ≤ lines.length) &&
        ((lines.drop i).take 5 == (lines.drop (i + 5)).take 5) &&
        (lines.getD i [] == lines.getD (i + 1) [])) = true ↔
        (∃ i, i + 10 ≤ lines.length ∧
           (lines.drop i).take 5 = (lines.drop (i + 5)).take 5 ∧
           lines.getD i [] = lines.getD (i + 1) []) := by
      rw [List.any_eq_true]
      constructor
      · rintro ⟨i, -, hp⟩
        simp only [Bool.and_eq_true, decide_eq_true_eq, beq_iff_eq] at hp
        exact ⟨i, hp.1.1, hp.1.2, hp.2⟩
      · rintro ⟨i, hi, he1, he2⟩
        refine ⟨i, List.mem_range.mpr (by omega), ?_⟩
        simp only [Bool.and_eq_true, decide_eq_true_eq, beq_iff_eq]
        exact ⟨⟨hi, he1⟩, he2⟩
    cases ha : ((List.range (lines.length - 5)).any fun i =>
        decide (i + 10 ≤ lines.length) &&
        ((lines.drop i).take 5 == (lines.drop (i + 5)).take 5) &&
        (lines.getD i [] == lines.getD (i + 1) [])) with
    | true =>
      simp only [ha, if_true, true_iff]
      exact ⟨h10, Or.inl (hrep.mp ha)⟩
    | false =>
      simp only [ha, Bool.false_eq_true, if_false]
      rw [ha] at hrep
      constructor
      · intro hb
        refine ⟨h10, Or.inr ?_⟩
        cases hm : TE.mostCommon lines with
        | none => rw [hm] at hb; exact absurd hb (by simp)
        | some p =>
          rw [hm] at hb
          simp only [Bool.and_eq_true, decide_eq_true_eq] at hb
          exact ⟨p, rfl, hb.1, hb.2⟩
      · rintro ⟨-, hd⟩
        cases hd with
        | inl h1 => exact absurd (hrep.mpr h1) (by simp)
        | inr h2 =>
          obtain ⟨p, hm, hc, hl⟩ := h2
          rw [hm]
          simp only [Bool.and_eq_true, decide_eq_true_eq]
          exact ⟨hc, hl⟩
